import Mathlib

/-!
Verification of the sonde-lora-bridge core components against their
natural-language specification.

The development shallowly embeds the two core components:

* `src/DataOptimizer.py` — the telemetry compaction codec
  (field registry, per-field scaling, recursive minimize/restore,
  binary serialization round-trip); and
* `src/WorkloadManager.py` — the threshold batch scheduler
  (count/time thresholds, single-item emission, reset discipline),
  both as a sequential state-transformer model and as a two-thread
  interleaving model for the concurrency claims.

Python numeric values are modelled as exact rationals (`ℚ`): the spec's
claims are about the intended fixed-point arithmetic, and IEEE-754
floating-point representation error is outside the representable-range
proviso of the spec. Python `int(x)` on a number is truncation toward
zero, modelled by `pyTrunc`.
-/

namespace SondeLoraBridge

/-- Key of a Python dict in this code base: either a field-name string or a
compact integer key. -/
inductive VKey where
  | kstr (s : String)
  | kint (n : ℤ)
deriving DecidableEq, Repr

/-- JSON-like value processed by `DataOptimizer`: booleans, strings,
integers, numbers (Python floats, modelled as exact rationals), lists,
dicts (association lists, with mixed string/integer keys), and `None`.
This is exactly the value shape the Python code dispatches on. -/
inductive Value where
  | vbool (b : Bool)
  | vstr (s : String)
  | vint (n : ℤ)
  | vfloat (q : ℚ)
  | vlist (l : List Value)
  | vdict (l : List (VKey × Value))
  | vnull

/-- Python `int(x)` applied to a number: truncation toward zero. -/
def pyTrunc (q : ℚ) : ℤ := if 0 ≤ q then ⌊q⌋ else ⌈q⌉

/-- Python truthiness of a dict key, as used by
`if field_name and field_name in self.FIELD_CONFIG` in
`DataOptimizer._minimize_value` / `_restore_value`: the empty string and
the integer 0 are falsy. -/
def pyTruthyKey : VKey → Bool
  | .kstr s => s != ""
  | .kint n => n != 0

/-- The table `DataOptimizer.FIELD_CONFIG` (src/DataOptimizer.py lines
12-38): field name to (compact key, scale). -/
def FIELD_CONFIG : List (String × ℤ × ℚ) :=
  [ ("type", 0, 1),
    ("station", 1, 1),
    ("callsign", 2, 1),
    ("latitude", 3, 100000),
    ("longitude", 4, 100000),
    ("altitude", 5, 1),
    ("speed", 6, 100),
    ("heading", 7, 100000),
    ("time", 8, 1),
    ("comment", 9, 1),
    ("model", 10, 1),
    ("freq", 11, 1000),
    ("temp", 12, 10),
    ("frame", 13, 1),
    ("humidity", 14, 10),
    ("pressure", 15, 10),
    ("sats", 16, 1),
    ("batt", 17, 10),
    ("sdr_device_idx", 18, 1),
    ("vel_v", 19, 10),
    ("vel_h", 20, 10),
    ("bt", 21, 1),
    ("snr", 22, 10),
    ("subtype", 23, 1),
    ("manufacturer", 24, 1) ]

/-- The derived `DataOptimizer.REVERSE_KEY_MAPPING` (line 41):
compact key to field name. -/
def REVERSE_KEY_MAPPING : List (ℤ × String) :=
  FIELD_CONFIG.map (fun e => (e.2.1, e.1))

/-- Membership test and lookup `k in self.FIELD_CONFIG` /
`self.FIELD_CONFIG[k]`: the Python dict is keyed by strings, so an
integer key is never a member. -/
def cfgLookup : VKey → Option (ℤ × ℚ)
  | .kstr s => List.lookup s FIELD_CONFIG
  | .kint _ => none

/-- Scale selection in `_minimize_value` / `_restore_value` (lines
127-130 and 170-171): the registered scale when `field_name` is truthy
and registered, else 1. -/
def scaleOf (fn : Option VKey) : ℚ :=
  match fn with
  | some k =>
      if pyTruthyKey k then
        match cfgLookup k with
        | some e => e.2
        | none => 1
      else 1
  | none => 1

/-- Key translation on encode (lines 63 and 137):
`FIELD_CONFIG[k]["key"] if k in FIELD_CONFIG else k`. -/
def encodeKey (k : VKey) : VKey :=
  match cfgLookup k with
  | some e => .kint e.1
  | none => k

/-- Key translation on decode (lines 153 and 179):
`REVERSE_KEY_MAPPING.get(k, k)`. -/
def decodeKey (k : VKey) : VKey :=
  match k with
  | .kint n =>
      match List.lookup n REVERSE_KEY_MAPPING with
      | some name => .kstr name
      | none => .kint n
  | .kstr s => .kstr s

mutual
/-- `DataOptimizer._minimize_value` (lines 108-139). Dispatch order is
the source's: bool, str, int/float, list, dict, passthrough. -/
def minimize_value : Value → Option VKey → Value
  | .vbool b, _ => .vint (if b then 1 else 0)
  | .vstr s, _ => .vstr s
  | .vint n, fn => .vint (pyTrunc ((n : ℚ) * scaleOf fn))
  | .vfloat q, fn => .vint (pyTrunc (q * scaleOf fn))
  | .vlist l, fn => .vlist (minimize_list l fn)
  | .vdict d, _ => .vdict (minimize_dict d)
  | .vnull, _ => .vnull
/-- List branch of `_minimize_value` (line 134): elementwise, with the
same `field_name`. -/
def minimize_list : List Value → Option VKey → List Value
  | [], _ => []
  | v :: vs, fn => minimize_value v fn :: minimize_list vs fn
/-- Dict branch of `_minimize_value` (lines 137-138): each key mapped
through `FIELD_CONFIG`, each value minimized with its own key. -/
def minimize_dict : List (VKey × Value) → List (VKey × Value)
  | [] => []
  | (k, v) :: ds => (encodeKey k, minimize_value v (some k)) :: minimize_dict ds
end

/-- Integer branch of `_restore_value` (lines 168-175): `orig` is the
original Python object (returned unchanged when the field is not
registered), `n` its integer reading. With a registered scale `s`:
`val = value / s if s != 0 else value`, then
`return val if s != 1 else int(val)`. -/
def restore_int_branch (orig : Value) (n : ℤ) (fn : Option VKey) : Value :=
  match fn with
  | some k =>
      if pyTruthyKey k then
        match cfgLookup k with
        | some e =>
            if e.2 ≠ 0 then
              if e.2 ≠ 1 then .vfloat ((n : ℚ) / e.2)
              else .vint (pyTrunc ((n : ℚ) / e.2))
            else orig
        | none => orig
      else orig
  | none => orig

mutual
/-- `DataOptimizer._restore_value` (lines 157-181). Note that Python
`isinstance(value, int)` also matches booleans, so `vbool` enters the
integer branch with `True` read as 1 and `False` as 0. -/
def restore_value : Value → Option VKey → Value
  | .vbool b, fn => restore_int_branch (.vbool b) (if b then 1 else 0) fn
  | .vint n, fn => restore_int_branch (.vint n) n fn
  | .vlist l, fn => .vlist (restore_list l fn)
  | .vdict d, _ => .vdict (restore_dict d)
  | v, _ => v
/-- List branch of `_restore_value` (line 177). -/
def restore_list : List Value → Option VKey → List Value
  | [], _ => []
  | v :: vs, fn => restore_value v fn :: restore_list vs fn
/-- Dict branch of `_restore_value` (lines 179-180): keys mapped through
`REVERSE_KEY_MAPPING`, values restored with the decoded key. -/
def restore_dict : List (VKey × Value) → List (VKey × Value)
  | [] => []
  | (k, v) :: ds =>
      (decodeKey k, restore_value v (some (decodeKey k))) :: restore_dict ds
end

/-- `DataOptimizer.optimize_json` (lines 47-66), on an already-parsed
dict: map each key through `FIELD_CONFIG` and minimize each value with
its own key. -/
def optimize_json (d : List (VKey × Value)) : List (VKey × Value) :=
  d.map (fun e => (encodeKey e.1, minimize_value e.2 (some e.1)))

/-- `DataOptimizer.decode_json` (lines 141-155): map each key through
`REVERSE_KEY_MAPPING` and restore each value with the decoded key. -/
def decode_json (d : List (VKey × Value)) : List (VKey × Value) :=
  d.map (fun e => (decodeKey e.1, restore_value e.2 (some (decodeKey e.1))))

/-- Modelled from the spec: one atom of the "self-describing, schema-less
binary map encoding" (spec §4.3) produced by the third-party `cbor2`
library, whose code is not part of this repository. Container headers
carry the element count, keys are tagged integer/string atoms, exactly
as in CBOR major types. -/
inductive Tok where
  | tBool (b : Bool)
  | tStr (s : String)
  | tInt (n : ℤ)
  | tFloat (q : ℚ)
  | tNull
  | tArr (n : ℕ)
  | tMap (n : ℕ)
  | tKeyStr (s : String)
  | tKeyInt (n : ℤ)
deriving DecidableEq, Repr

/-- Serialization of a map key to its tagged atom. -/
def serKey : VKey → Tok
  | .kstr s => .tKeyStr s
  | .kint n => .tKeyInt n

mutual
/-- Modelled from the spec: `cbor2.dumps` on one value — a header-first
preorder flattening of the value tree. -/
def cborSer : Value → List Tok
  | .vbool b => [.tBool b]
  | .vstr s => [.tStr s]
  | .vint n => [.tInt n]
  | .vfloat q => [.tFloat q]
  | .vnull => [.tNull]
  | .vlist l => .tArr l.length :: cborSerList l
  | .vdict d => .tMap d.length :: cborSerDict d
/-- Array-body serialization. -/
def cborSerList : List Value → List Tok
  | [] => []
  | v :: vs => cborSer v ++ cborSerList vs
/-- Map-body serialization: key atom, then value, per entry. -/
def cborSerDict : List (VKey × Value) → List Tok
  | [] => []
  | (k, v) :: ds => serKey k :: (cborSer v ++ cborSerDict ds)
end

mutual
/-- Modelled from the spec: `cbor2.loads`, fuel-indexed so that it is
structurally recursive; `none` is the `MalformedFrame` decode error. -/
def cborParse : ℕ → List Tok → Option (Value × List Tok)
  | 0, _ => none
  | _ + 1, [] => none
  | f + 1, t :: rest =>
    match t with
    | .tBool b => some (.vbool b, rest)
    | .tStr s => some (.vstr s, rest)
    | .tInt n => some (.vint n, rest)
    | .tFloat q => some (.vfloat q, rest)
    | .tNull => some (.vnull, rest)
    | .tArr n =>
      match cborParseList f n rest with
      | some (l, r) => some (.vlist l, r)
      | none => none
    | .tMap n =>
      match cborParseDict f n rest with
      | some (d, r) => some (.vdict d, r)
      | none => none
    | .tKeyStr _ => none
    | .tKeyInt _ => none
/-- Parse `n` array elements. -/
def cborParseList : ℕ → ℕ → List Tok → Option (List Value × List Tok)
  | _, 0, toks => some ([], toks)
  | 0, _ + 1, _ => none
  | f + 1, n + 1, toks =>
    match cborParse f toks with
    | some (v, r) =>
      match cborParseList f n r with
      | some (l, r2) => some (v :: l, r2)
      | none => none
    | none => none
/-- Parse `n` map entries (key atom, then value). -/
def cborParseDict : ℕ → ℕ → List Tok → Option (List (VKey × Value) × List Tok)
  | _, 0, toks => some ([], toks)
  | 0, _ + 1, _ => none
  | f + 1, n + 1, toks =>
    match toks with
    | .tKeyStr s :: r0 =>
      match cborParse f r0 with
      | some (v, r) =>
        match cborParseDict f n r with
        | some (d, r2) => some ((.kstr s, v) :: d, r2)
        | none => none
      | none => none
    | .tKeyInt m :: r0 =>
      match cborParse f r0 with
      | some (v, r) =>
        match cborParseDict f n r with
        | some (d, r2) => some ((.kint m, v) :: d, r2)
        | none => none
      | none => none
    | _ => none
end

mutual
/-- Node count of a value tree; used as the parser fuel bound. -/
def sizeV : Value → ℕ
  | .vlist l => 1 + sizeL l
  | .vdict d => 1 + sizeD d
  | _ => 1
/-- Node count of an array body. -/
def sizeL : List Value → ℕ
  | [] => 0
  | v :: vs => 1 + sizeV v + sizeL vs
/-- Node count of a map body. -/
def sizeD : List (VKey × Value) → ℕ
  | [] => 0
  | (_, v) :: ds => 1 + sizeV v + sizeD ds
end

/-- `DataOptimizer.to_cbor2` (lines 81-92): optimize, then serialize the
compact dict. -/
def to_cbor2 (d : List (VKey × Value)) : List Tok :=
  cborSer (.vdict (optimize_json d))

/-- `DataOptimizer.from_cbor2` (lines 94-106): deserialize one value and
decode it; any failure (malformed frame, or a frame that is not a map)
is an error. The fuel `2 * length + 1` dominates the node count of any
value serialized into the frame. -/
def from_cbor2 (toks : List Tok) : Option (List (VKey × Value)) :=
  match cborParse (2 * toks.length + 1) toks with
  | some (.vdict d, _) => some (decode_json d)
  | _ => none

/-! ## Threshold batch scheduler (`src/WorkloadManager.py`), sequential model

The mutable fields of a `WorkloadManager` instance, plus two observation
fields: `calls` is the trace of consumer invocations (each entry the
argument the callback received), and `raised` records that the consumer
callback raised an exception during the operation that produced this
state (the exception then propagates out of `addWork` / `flush`, so any
statement after the call site is skipped). The callback itself is
modelled by a predicate `α → Bool` telling on which items it raises;
time is an abstract `ℕ` clock passed in by the caller. -/
structure WMState (α : Type) where
  counter : ℕ
  start_time : Option ℕ
  data_buffer : List α
  calls : List α
  raised : Bool

/-- Fresh `WorkloadManager` state (from `__init__`, lines 22-29). -/
def WMState.init {α : Type} : WMState α :=
  { counter := 0, start_time := none, data_buffer := [], calls := [], raised := false }

/-- The reset statements of `_trigger_callback` (lines 60-64). -/
def wmReset {α : Type} (s : WMState α) : WMState α :=
  { s with counter := 0, start_time := none, data_buffer := [] }

/-- `WorkloadManager._trigger_callback` (lines 55-64): when a callback is
registered and the buffer is non-empty, invoke it on `data_buffer[-1]`;
then reset. If the callback raises, the reset statements are not
reached and the exception propagates (`raised := true`). -/
def trigger_callback {α : Type} (cb : Option (α → Bool)) (s : WMState α) : WMState α :=
  match cb, s.data_buffer.getLast? with
  | some f, some item =>
      let s1 := { s with calls := s.calls ++ [item] }
      if f item then { s1 with raised := true } else wmReset s1
  | _, _ => wmReset s

/-- `WorkloadManager.addWork` (lines 31-48, with `_check_counter_threshold`
lines 50-53 inlined): append, count, arm the deadline on the first item,
then fire if the count threshold is reached. `kThr` is `count_threshold`
and `now` the current clock. -/
def addWork {α : Type} (cb : Option (α → Bool)) (kThr : ℕ) (now : ℕ)
    (x : α) (s : WMState α) : WMState α :=
  let s1 := { s with data_buffer := s.data_buffer ++ [x], counter := s.counter + 1 }
  let s2 := if s1.counter = 1 then { s1 with start_time := some now } else s1
  if kThr ≤ s2.counter then trigger_callback cb s2 else s2

/-- `WorkloadManager.flush` (lines 66-69). -/
def flush {α : Type} (cb : Option (α → Bool)) (s : WMState α) : WMState α :=
  if 0 < s.counter then trigger_callback cb s else s

/-- One poll of `WorkloadManager._timer_check` (lines 88-95) in which the
timer thread observes clock `now`: fire when a deadline is armed and
`time_threshold` (`tThr`) has elapsed. -/
def timer_fire {α : Type} (cb : Option (α → Bool)) (tThr : ℕ) (now : ℕ)
    (s : WMState α) : WMState α :=
  match s.start_time with
  | some t0 => if tThr ≤ now - t0 then trigger_callback cb s else s
  | none => s

/-! ## Two-thread interleaving model for the concurrency claim

`src/WorkloadManager.py` takes no lock anywhere: `addWork` (producer
thread) and `_timer_check` (background timer thread) read and write
`counter`, `start_time`, `data_buffer` and run `_trigger_callback`
concurrently. The model below gives each thread a program counter over
the statements of the source, one atomic step per statement (Python's
interpreter can switch threads between bytecodes, in particular around a
callback invocation). The producer is executing `addWork(item)` as the
third item of a window whose deadline has already expired; the timer
thread is executing its poll of `_timer_check`. The consumer callback
never raises and is modelled just by its invocation trace. -/
structure SysState where
  counter : ℕ
  start_time : Option ℕ
  data_buffer : List ℕ
  calls : List ℕ
  pcM : ℕ
  pcT : ℕ

/-- One step of the producer thread running `addWork item` with
`count_threshold = kThr`, then (pc 4 onward) `_trigger_callback`.
pc 0: line 39 append; pc 1: line 40 increment; pc 2: line 43 first-item
test; pc 3: line 52 count-threshold test; pc 4: line 57 guard;
pc 5: line 58 callback invocation; pc 6-8: lines 61-63 reset; pc 9:
finished. -/
def stepM (kThr : ℕ) (now : ℕ) (item : ℕ) (s : SysState) : SysState :=
  match s.pcM with
  | 0 => { s with data_buffer := s.data_buffer ++ [item], pcM := 1 }
  | 1 => { s with counter := s.counter + 1, pcM := 2 }
  | 2 => if s.counter = 1 then { s with start_time := some now, pcM := 3 }
         else { s with pcM := 3 }
  | 3 => if kThr ≤ s.counter then { s with pcM := 4 } else { s with pcM := 9 }
  | 4 => if s.data_buffer ≠ [] then { s with pcM := 5 } else { s with pcM := 6 }
  | 5 => { s with calls := s.calls ++ (s.data_buffer.getLast?.toList), pcM := 6 }
  | 6 => { s with counter := 0, pcM := 7 }
  | 7 => { s with start_time := none, pcM := 8 }
  | 8 => { s with data_buffer := [], pcM := 9 }
  | _ => s

/-- One step of the timer thread in `_timer_check` with
`time_threshold = tThr` reading clock `now`, then (pc 2 onward)
`_trigger_callback`. pc 0: line 90 deadline-armed test; pc 1: lines
91-92 elapsed test; pc 2: line 57 guard; pc 3: line 58 callback
invocation; pc 4-6: lines 61-63 reset; pc 7: finished (line 94 break). -/
def stepT (tThr : ℕ) (now : ℕ) (s : SysState) : SysState :=
  match s.pcT with
  | 0 => match s.start_time with
         | some _ => { s with pcT := 1 }
         | none => { s with pcT := 0 }
  | 1 => match s.start_time with
         | some t0 => if tThr ≤ now - t0 then { s with pcT := 2 } else { s with pcT := 0 }
         | none => { s with pcT := 0 }
  | 2 => if s.data_buffer ≠ [] then { s with pcT := 3 } else { s with pcT := 4 }
  | 3 => { s with calls := s.calls ++ (s.data_buffer.getLast?.toList), pcT := 4 }
  | 4 => { s with counter := 0, pcT := 5 }
  | 5 => { s with start_time := none, pcT := 6 }
  | 6 => { s with data_buffer := [], pcT := 7 }
  | _ => s

/-- Run a schedule: `true` steps the producer, `false` the timer. -/
def runSched (kThr tThr now : ℕ) (item : ℕ) (sched : List Bool) (s : SysState) : SysState :=
  sched.foldl (fun st b => if b then stepM kThr now item st else stepT tThr now st) s

/-- System state at the start of the race window: two items buffered in
the current window (armed at clock 0), producer about to run
`addWork item`, timer about to poll with the deadline already expired. -/
def raceInit : SysState :=
  { counter := 2, start_time := some 0, data_buffer := [1, 2], calls := [],
    pcM := 0, pcT := 0 }

/-- The interleaving exhibiting the double fire: the timer passes its
elapsed test, the producer runs `addWork` through its own callback
invocation, the timer then passes the `_trigger_callback` guard (the
buffer is still non-empty — the producer has not reset yet) and invokes
the callback again; both threads then finish their resets. -/
def raceSched : List Bool :=
  [false, false, true, true, true, true, true, true,
   false, false, true, true, true, false, false, false]

/-- Numeric reading of a value, when it is a Python `int` or `float`
(excluding booleans, which the claims treat separately). -/
def numQ : Value → Option ℚ
  | .vint n => some (n : ℚ)
  | .vfloat q => some q
  | _ => none

/-- Containers are the values whose restoration recurses. -/
def isContainer : Value → Prop
  | .vlist _ => True
  | .vdict _ => True
  | _ => False

/-- The Batch State invariant of spec §3: the deadline (`start_time`) is
armed exactly when the arrival counter is positive. -/
def wmInv {α : Type} (s : WMState α) : Prop :=
  s.start_time.isSome ↔ 0 < s.counter

/-! ## Helper lemmas -/

theorem pyTrunc_intCast (n : ℤ) : pyTrunc (n : ℚ) = n := by
  unfold pyTrunc
  split <;> simp

theorem abs_sub_pyTrunc_lt_one (q : ℚ) : |q - (pyTrunc q : ℚ)| < 1 := by
  unfold pyTrunc
  split
  · rw [abs_of_nonneg (sub_nonneg.mpr (Int.floor_le q))]
    linarith [Int.lt_floor_add_one q]
  · rw [abs_sub_comm, abs_of_nonneg (sub_nonneg.mpr (Int.le_ceil q))]
    linarith [Int.ceil_lt_add_one q]

theorem abs_pyTrunc_le (q : ℚ) : |(pyTrunc q : ℚ)| ≤ |q| := by
  unfold pyTrunc
  split
  next h =>
    rw [abs_of_nonneg h, abs_of_nonneg (by exact_mod_cast Int.floor_nonneg.mpr h)]
    exact Int.floor_le q
  next h =>
    push_neg at h
    have hc : ⌈q⌉ ≤ 0 := Int.ceil_le.mpr (by exact_mod_cast le_of_lt h)
    rw [abs_of_nonpos (le_of_lt h), abs_of_nonpos (by exact_mod_cast hc)]
    simpa using Int.le_ceil q

theorem mem_of_lookup_eq_some {α β : Type} [BEq α] [LawfulBEq α] {a : α}
    {l : List (α × β)} {b : β} (h : List.lookup a l = some b) : (a, b) ∈ l := by
  induction l with
  | nil => simp [List.lookup] at h
  | cons hd tl ih =>
    cases hab : a == hd.1 with
    | true =>
      rcases hd with ⟨x, y⟩
      simp only [List.lookup, hab] at h
      simp_all [eq_of_beq hab]
    | false =>
      simp only [List.lookup, hab] at h
      exact List.mem_cons_of_mem _ (ih h)

/-- The three facts about the concrete registry that the claims rely on:
no registered name is empty (so the Python truthiness test never masks a
registered field), every scale is positive, and the reverse mapping
inverts the forward mapping. -/
theorem field_config_fact :
    ∀ e ∈ FIELD_CONFIG,
      e.1 ≠ "" ∧ 0 < e.2.2 ∧ List.lookup e.2.1 REVERSE_KEY_MAPPING = some e.1 := by
  decide

theorem cfg_props {name : String} {k : ℤ} {s : ℚ}
    (h : List.lookup name FIELD_CONFIG = some (k, s)) :
    name ≠ "" ∧ 0 < s ∧ List.lookup k REVERSE_KEY_MAPPING = some name :=
  field_config_fact (name, k, s) (mem_of_lookup_eq_some h)

/-- Encoding then decoding a string field name is the identity, whether
or not the name is registered. -/
theorem decodeKey_encodeKey (name : String) :
    decodeKey (encodeKey (.kstr name)) = .kstr name := by
  cases h : List.lookup name FIELD_CONFIG with
  | none => simp [encodeKey, cfgLookup, h, decodeKey]
  | some e =>
    rcases e with ⟨k, s⟩
    have h3 := (cfg_props h).2.2
    simp [encodeKey, cfgLookup, h, decodeKey, h3]

theorem scaleOf_of_lookup {name : String} {k : ℤ} {s : ℚ}
    (h : List.lookup name FIELD_CONFIG = some (k, s)) :
    scaleOf (some (.kstr name)) = s := by
  have hne : name ≠ "" := (cfg_props h).1
  simp [scaleOf, pyTruthyKey, hne, cfgLookup, h]

theorem scaleOf_of_not_registered {name : String}
    (h : List.lookup name FIELD_CONFIG = none) :
    scaleOf (some (.kstr name)) = 1 := by
  by_cases hne : name = ""
  · simp [scaleOf, pyTruthyKey, hne]
  · simp [scaleOf, pyTruthyKey, hne, cfgLookup, h]

theorem one_le_sizeV (v : Value) : 1 ≤ sizeV v := by
  cases v <;> simp [sizeV]

/-- Parsing inverts serialization, given fuel at least the node count. -/
theorem cborParse_cborSer (f : ℕ) :
    (∀ v rest, sizeV v ≤ f → cborParse f (cborSer v ++ rest) = some (v, rest)) ∧
    (∀ l rest, sizeL l ≤ f →
      cborParseList f l.length (cborSerList l ++ rest) = some (l, rest)) ∧
    (∀ d rest, sizeD d ≤ f →
      cborParseDict f d.length (cborSerDict d ++ rest) = some (d, rest)) := by
  induction f with
  | zero =>
    refine ⟨fun v rest h => absurd h (by have := one_le_sizeV v; omega), ?_, ?_⟩
    · intro l rest h
      cases l with
      | nil => simp [cborSerList, cborParseList]
      | cons v vs => simp [sizeL] at h
    · intro d rest h
      cases d with
      | nil => simp [cborSerDict, cborParseDict]
      | cons e ds =>
        rcases e with ⟨k, v⟩
        simp [sizeD] at h
  | succ f ih =>
    obtain ⟨ihV, ihL, ihD⟩ := ih
    refine ⟨?_, ?_, ?_⟩
    · intro v rest h
      cases v with
      | vbool b => simp [cborSer, cborParse]
      | vstr s => simp [cborSer, cborParse]
      | vint n => simp [cborSer, cborParse]
      | vfloat q => simp [cborSer, cborParse]
      | vnull => simp [cborSer, cborParse]
      | vlist l =>
        have hl : sizeL l ≤ f := by simp [sizeV] at h; omega
        simp [cborSer, cborParse, List.cons_append, ihL l rest hl]
      | vdict d =>
        have hd : sizeD d ≤ f := by simp [sizeV] at h; omega
        simp [cborSer, cborParse, List.cons_append, ihD d rest hd]
    · intro l rest h
      cases l with
      | nil => simp [cborSerList, cborParseList]
      | cons v vs =>
        have hb : sizeV v ≤ f ∧ sizeL vs ≤ f := by
          have h1 := one_le_sizeV v
          simp [sizeL] at h
          omega
        rw [cborSerList, List.length_cons, List.append_assoc, cborParseList,
          ihV v _ hb.1]
        simp [ihL vs rest hb.2]
    · intro d rest h
      cases d with
      | nil => simp [cborSerDict, cborParseDict]
      | cons e ds =>
        rcases e with ⟨k, v⟩
        have hb : sizeV v ≤ f ∧ sizeD ds ≤ f := by
          have h1 := one_le_sizeV v
          simp [sizeD] at h
          omega
        cases k with
        | kstr s =>
          rw [cborSerDict, List.length_cons, serKey]
          rw [show (Tok.tKeyStr s :: (cborSer v ++ cborSerDict ds)) ++ rest
              = Tok.tKeyStr s :: (cborSer v ++ (cborSerDict ds ++ rest)) by
            simp [List.append_assoc]]
          rw [cborParseDict, ihV v _ hb.1]
          simp [ihD ds rest hb.2]
        | kint m =>
          rw [cborSerDict, List.length_cons, serKey]
          rw [show (Tok.tKeyInt m :: (cborSer v ++ cborSerDict ds)) ++ rest
              = Tok.tKeyInt m :: (cborSer v ++ (cborSerDict ds ++ rest)) by
            simp [List.append_assoc]]
          rw [cborParseDict, ihV v _ hb.1]
          simp [ihD ds rest hb.2]

/-- The serialized stream is long enough: node count is dominated by
twice the token count. -/
theorem sizeV_le_two_mul_length (f : ℕ) :
    (∀ v, sizeV v ≤ f → sizeV v + 1 ≤ 2 * (cborSer v).length) ∧
    (∀ l, sizeL l ≤ f → sizeL l ≤ 2 * (cborSerList l).length) ∧
    (∀ d, sizeD d ≤ f → sizeD d ≤ 2 * (cborSerDict d).length) := by
  induction f with
  | zero =>
    refine ⟨fun v h => absurd h (by have := one_le_sizeV v; omega), ?_, ?_⟩
    · intro l h
      cases l with
      | nil => simp [sizeL]
      | cons v vs => simp [sizeL] at h
    · intro d h
      cases d with
      | nil => simp [sizeD]
      | cons e ds =>
        rcases e with ⟨k, v⟩
        simp [sizeD] at h
  | succ f ih =>
    obtain ⟨ihV, ihL, ihD⟩ := ih
    refine ⟨?_, ?_, ?_⟩
    · intro v h
      cases v with
      | vbool b => simp [cborSer, sizeV]
      | vstr s => simp [cborSer, sizeV]
      | vint n => simp [cborSer, sizeV]
      | vfloat q => simp [cborSer, sizeV]
      | vnull => simp [cborSer, sizeV]
      | vlist l =>
        have hl : sizeL l ≤ f := by simp [sizeV] at h; omega
        have := ihL l hl
        simp only [cborSer, sizeV, List.length_cons]
        omega
      | vdict d =>
        have hd : sizeD d ≤ f := by simp [sizeV] at h; omega
        have := ihD d hd
        simp only [cborSer, sizeV, List.length_cons]
        omega
    · intro l h
      cases l with
      | nil => simp [sizeL]
      | cons v vs =>
        have hb : sizeV v ≤ f ∧ sizeL vs ≤ f := by
          have h1 := one_le_sizeV v
          simp [sizeL] at h
          omega
        have h2 := ihV v hb.1
        have h3 := ihL vs hb.2
        simp only [cborSerList, sizeL, List.length_append]
        omega
    · intro d h
      cases d with
      | nil => simp [sizeD]
      | cons e ds =>
        rcases e with ⟨k, v⟩
        have hb : sizeV v ≤ f ∧ sizeD ds ≤ f := by
          have h1 := one_le_sizeV v
          simp [sizeD] at h
          omega
        have h2 := ihV v hb.1
        have h3 := ihD ds hb.2
        simp only [cborSerDict, sizeD, List.length_cons, List.length_append]
        omega

/-- The full binary pipeline: deserializing a serialized compact record
succeeds and hands the compact dict to `decode_json`. -/
theorem from_cbor2_to_cbor2 (d : List (VKey × Value)) :
    from_cbor2 (to_cbor2 d) = some (decode_json (optimize_json d)) := by
  set X := optimize_json d with hX
  have hsize : sizeV (.vdict X) + 1 ≤ 2 * (cborSer (.vdict X)).length :=
    (sizeV_le_two_mul_length (sizeV (.vdict X))).1 _ le_rfl
  have hparse :
      cborParse (2 * (cborSer (.vdict X)).length + 1) (cborSer (.vdict X) ++ [])
        = some (.vdict X, []) :=
    (cborParse_cborSer _).1 (.vdict X) [] (by omega)
  rw [List.append_nil] at hparse
  rw [from_cbor2, to_cbor2, ← hX, hparse]

/-- Restoration of an integer compact value for a registered field. -/
theorem restore_value_vint_of_lookup {name : String} {k : ℤ} {s : ℚ} (m : ℤ)
    (h : List.lookup name FIELD_CONFIG = some (k, s)) (hs : 0 < s) :
    restore_value (.vint m) (some (.kstr name)) =
      if s ≠ 1 then .vfloat ((m : ℚ) / s) else .vint m := by
  have hne : name ≠ "" := (cfg_props h).1
  rw [restore_value]
  unfold restore_int_branch
  simp only [pyTruthyKey, cfgLookup, h, hne, bne_iff_ne, ne_eq,
    not_false_eq_true, if_true]
  rw [if_pos (by exact ne_of_gt hs)]
  split
  · rfl
  next h1 =>
    rw [not_ne_iff] at h1
    simp [h1, pyTrunc_intCast]

/-- Decode after encode is an entrywise map over the record. -/
theorem decode_json_optimize_json (d : List (VKey × Value)) :
    decode_json (optimize_json d) =
      d.map (fun e => (decodeKey (encodeKey e.1),
        restore_value (minimize_value e.2 (some e.1))
          (some (decodeKey (encodeKey e.1))))) := by
  simp only [optimize_json, decode_json, List.map_map]
  rfl

/-- Round-trip bound for a numeric value of a registered field: the
restored number differs from the original by strictly less than the
reciprocal of the scale (truncation error). -/
theorem restored_numeric_bound {name : String} {k : ℤ} {s : ℚ}
    (h : List.lookup name FIELD_CONFIG = some (k, s)) {v : Value} {q : ℚ}
    (hv : numQ v = some q) :
    ∃ q2, numQ (restore_value (minimize_value v (some (.kstr name)))
        (some (.kstr name))) = some q2 ∧ |q - q2| < 1 / s := by
  have hs : 0 < s := (cfg_props h).2.1
  have hscale := scaleOf_of_lookup h
  have hmin : minimize_value v (some (.kstr name)) = .vint (pyTrunc (q * s)) := by
    cases v <;> simp_all [minimize_value, numQ]
  rw [hmin, restore_value_vint_of_lookup _ h hs]
  have hb : |q * s - (pyTrunc (q * s) : ℚ)| < 1 := abs_sub_pyTrunc_lt_one _
  by_cases h1 : s = 1
  · subst h1
    refine ⟨(pyTrunc (q * 1) : ℚ), by simp [numQ], ?_⟩
    simpa using hb
  · rw [if_pos h1]
    refine ⟨(pyTrunc (q * s) : ℚ) / s, by simp [numQ], ?_⟩
    have heq : q - (pyTrunc (q * s) : ℚ) / s = (q * s - (pyTrunc (q * s) : ℚ)) / s := by
      field_simp
    rw [heq, abs_div, abs_of_pos hs]
    exact (div_lt_div_iff_of_pos_right hs).mpr hb

/-- Firing preserves the Batch State invariant, whether the callback is
absent, succeeds, or raises. -/
theorem trigger_callback_wmInv {α : Type} (cb : Option (α → Bool))
    (s : WMState α) (h : wmInv s) : wmInv (trigger_callback cb s) := by
  unfold trigger_callback
  cases cb with
  | none => simp [wmInv, wmReset]
  | some f =>
    cases hl : s.data_buffer.getLast? with
    | none => simp [wmInv, wmReset]
    | some item =>
      by_cases hf : f item
      · simpa [wmInv, hf] using h
      · simp [wmInv, wmReset, hf]

/-- The fire-if-threshold-reached step preserves the invariant. -/
theorem fire_check_wmInv {α : Type} (cb : Option (α → Bool)) (kThr : ℕ)
    (t : WMState α) (ht : wmInv t) :
    wmInv (if kThr ≤ t.counter then trigger_callback cb t else t) := by
  split
  · exact trigger_callback_wmInv cb t ht
  · exact ht

/-- When the fire completes without an exception, counter, deadline and
buffer are all cleared together. -/
theorem trigger_callback_clears {α : Type} (cb : Option (α → Bool))
    (s : WMState α) (h2 : (trigger_callback cb s).raised = false) :
    (trigger_callback cb s).counter = 0 ∧
    (trigger_callback cb s).start_time = none ∧
    (trigger_callback cb s).data_buffer = [] := by
  unfold trigger_callback at h2 ⊢
  cases cb with
  | none => simp [wmReset]
  | some f =>
    cases hl : s.data_buffer.getLast? with
    | none => simp [wmReset]
    | some item =>
      by_cases hf : f item
      · simp [hl, hf] at h2
      · simp [wmReset, hl, hf]

/-! ## Claims -/

/-- C1 (counterexample): the claimed error bound `0.5/scale` fails. For
the registered field `altitude` (scale 1) with value 1.9, the full
pipeline restores 1 — `int()` truncation, not nearest rounding — and
the error 0.9 exceeds `0.5/1`. -/
theorem C1_counterexample :
    from_cbor2 (to_cbor2 [(VKey.kstr "altitude", Value.vfloat (19/10))])
      = some [(VKey.kstr "altitude", Value.vint 1)] ∧
    List.lookup "altitude" FIELD_CONFIG = some (5, 1) ∧
    ¬ (|(19 : ℚ)/10 - ((1 : ℤ) : ℚ)| ≤ 1/2 / 1) := by
  have ha : List.lookup "altitude" FIELD_CONFIG = some (5, 1) := by decide
  have hrev : List.lookup (5 : ℤ) REVERSE_KEY_MAPPING = some "altitude" := by decide
  refine ⟨?_, ha, by rw [abs_of_nonneg (by norm_num)]; norm_num⟩
  rw [from_cbor2_to_cbor2]
  have htr : pyTrunc ((19 : ℚ)/10 * 1) = 1 := by
    unfold pyTrunc
    rw [if_pos (by norm_num)]
    norm_num
  have hmin : minimize_value (.vfloat (19/10)) (some (.kstr "altitude")) = .vint 1 := by
    rw [minimize_value, scaleOf_of_lookup ha, htr]
  have hopt : optimize_json [(VKey.kstr "altitude", Value.vfloat (19/10))]
      = [(VKey.kint 5, Value.vint 1)] := by
    simp [optimize_json, encodeKey, cfgLookup, ha, hmin]
  rw [hopt]
  have hres : restore_value (.vint 1) (some (.kstr "altitude")) = .vint 1 := by
    rw [restore_value_vint_of_lookup 1 ha (by norm_num)]
    norm_num
  simp [decode_json, decodeKey, hrev, hres]

/-- C1 (amended): the pipeline `from_cbor2 ∘ to_cbor2` deserializes
successfully, preserves every string field name of the record, and for a
registered numeric field with scale `s` the restored value differs from
the original by strictly less than `1/s` (the truncation bound; the
claimed `0.5/s` only holds for nearest rounding). -/
theorem C1_roundtrip (d : List (VKey × Value)) (name : String) (v : Value)
    (q : ℚ) (k : ℤ) (s : ℚ)
    (hmem : (VKey.kstr name, v) ∈ d) (hv : numQ v = some q)
    (hcfg : List.lookup name FIELD_CONFIG = some (k, s)) :
    ∃ out, from_cbor2 (to_cbor2 d) = some out ∧
      (∀ n2 v2, (VKey.kstr n2, v2) ∈ d → ∃ w2, (VKey.kstr n2, w2) ∈ out) ∧
      ∃ w q2, (VKey.kstr name, w) ∈ out ∧ numQ w = some q2 ∧ |q - q2| < 1 / s := by
  refine ⟨decode_json (optimize_json d), from_cbor2_to_cbor2 d, ?_, ?_⟩
  · intro n2 v2 hm
    rw [decode_json_optimize_json]
    have hmm := List.mem_map_of_mem
      (fun e => (decodeKey (encodeKey e.1),
        restore_value (minimize_value e.2 (some e.1))
          (some (decodeKey (encodeKey e.1))))) hm
    simp only [decodeKey_encodeKey] at hmm
    exact ⟨_, hmm⟩
  · obtain ⟨q2, hq2, hbound⟩ := restored_numeric_bound hcfg hv
    rw [decode_json_optimize_json]
    have hmm := List.mem_map_of_mem
      (fun e => (decodeKey (encodeKey e.1),
        restore_value (minimize_value e.2 (some e.1))
          (some (decodeKey (encodeKey e.1))))) hmem
    simp only [decodeKey_encodeKey] at hmm
    exact ⟨_, q2, hmm, hq2, hbound⟩

/-- C1 (witness): the amended round-trip claim instantiated on a
concrete one-field record, the spec's own boundary value `temp = -5.1`
(scale 10). -/
theorem C1_witness :
    ∃ out, from_cbor2 (to_cbor2 [(VKey.kstr "temp", Value.vfloat (-51/10))])
        = some out ∧
      (∀ n2 v2, (VKey.kstr n2, v2) ∈ [(VKey.kstr "temp", Value.vfloat (-51/10))] →
        ∃ w2, (VKey.kstr n2, w2) ∈ out) ∧
      ∃ w q2, (VKey.kstr "temp", w) ∈ out ∧ numQ w = some q2 ∧
        |(-51 : ℚ)/10 - q2| < 1 / 10 :=
  C1_roundtrip _ "temp" _ ((-51 : ℚ)/10) 12 10 (List.Mem.head _) rfl (by decide)

/-- C2 (counterexample): minimization is not nearest-integer rounding.
For the registered field `temp` (scale 10) and input 0.26, the code
produces `int(2.6) = 2`, while `round(2.6) = 3`. -/
theorem C2_counterexample :
    minimize_value (.vfloat (13/50)) (some (.kstr "temp")) = .vint 2 ∧
    round ((13 : ℚ)/50 * 10) = 3 ∧
    minimize_value (.vfloat (13/50)) (some (.kstr "temp"))
      ≠ .vint (round ((13 : ℚ)/50 * 10)) := by
  have ha : List.lookup "temp" FIELD_CONFIG = some (12, 10) := by decide
  have htr : pyTrunc ((13 : ℚ)/50 * 10) = 2 := by
    unfold pyTrunc
    rw [if_pos (by norm_num)]
    norm_num
  have hmin : minimize_value (.vfloat (13/50)) (some (.kstr "temp")) = .vint 2 := by
    rw [minimize_value, scaleOf_of_lookup ha, htr]
  have hround : round ((13 : ℚ)/50 * 10) = 3 := by
    rw [round_eq]
    norm_num
  refine ⟨hmin, hround, ?_⟩
  rw [hmin, hround]
  simp

/-- C2 (amended): minimization of a numeric value is `int(v * scale)`,
truncation toward zero — characterized by an error strictly below 1 and
a magnitude not exceeding the scaled input — stored strictly as an
integer; the spec's two boundary examples hold exactly because there the
scaled products are integers. -/
theorem C2_minimize :
    minimize_value (.vfloat (-51/10)) (some (.kstr "temp")) = .vint (-51) ∧
    minimize_value (.vfloat (3187804/100000)) (some (.kstr "latitude"))
      = .vint 3187804 ∧
    (∀ (q : ℚ) (fn : Option VKey), ∃ m : ℤ,
      minimize_value (.vfloat q) fn = .vint m ∧
      |q * scaleOf fn - (m : ℚ)| < 1 ∧ |(m : ℚ)| ≤ |q * scaleOf fn|) ∧
    (∀ (n : ℤ) (fn : Option VKey), ∃ m : ℤ,
      minimize_value (.vint n) fn = .vint m ∧
      |(n : ℚ) * scaleOf fn - (m : ℚ)| < 1 ∧
      |(m : ℚ)| ≤ |(n : ℚ) * scaleOf fn|) := by
  have ht : List.lookup "temp" FIELD_CONFIG = some (12, 10) := by decide
  have hl : List.lookup "latitude" FIELD_CONFIG = some (3, 100000) := by decide
  refine ⟨?_, ?_, ?_, ?_⟩
  · rw [minimize_value, scaleOf_of_lookup ht,
      show ((-51 : ℚ)/10 * 10) = ((-51 : ℤ) : ℚ) by norm_num, pyTrunc_intCast]
  · rw [minimize_value, scaleOf_of_lookup hl,
      show ((3187804 : ℚ)/100000 * 100000) = ((3187804 : ℤ) : ℚ) by norm_num,
      pyTrunc_intCast]
  · intro q fn
    exact ⟨pyTrunc (q * scaleOf fn), by rw [minimize_value],
      abs_sub_pyTrunc_lt_one _, abs_pyTrunc_le _⟩
  · intro n fn
    exact ⟨pyTrunc ((n : ℚ) * scaleOf fn), by rw [minimize_value],
      abs_sub_pyTrunc_lt_one _, abs_pyTrunc_le _⟩

/-- C3 (confirmed): with `count_threshold = 3`, three `addWork` calls in
immediate succession invoke the consumer exactly once, with exactly the
third item (`data_buffer[-1]`), and leave the scheduler Idle: empty
buffer, zero counter, cleared deadline. -/
theorem C3_count_fire {α : Type} (f : α → Bool) (a b c : α) (n1 n2 n3 : ℕ)
    (h : f c = false) :
    (addWork (some f) 3 n3 c (addWork (some f) 3 n2 b
        (addWork (some f) 3 n1 a WMState.init))).calls = [c] ∧
    (addWork (some f) 3 n3 c (addWork (some f) 3 n2 b
        (addWork (some f) 3 n1 a WMState.init))).counter = 0 ∧
    (addWork (some f) 3 n3 c (addWork (some f) 3 n2 b
        (addWork (some f) 3 n1 a WMState.init))).data_buffer = [] ∧
    (addWork (some f) 3 n3 c (addWork (some f) 3 n2 b
        (addWork (some f) 3 n1 a WMState.init))).start_time = none ∧
    (addWork (some f) 3 n3 c (addWork (some f) 3 n2 b
        (addWork (some f) 3 n1 a WMState.init))).raised = false := by
  simp [addWork, WMState.init, trigger_callback, wmReset, h]

/-- C3 (witness): the count-threshold fire on concrete items 1, 2, 3. -/
theorem C3_witness :
    (addWork (some (fun _ : ℕ => false)) 3 2 3 (addWork (some fun _ => false) 3 1 2
        (addWork (some fun _ => false) 3 0 1 WMState.init))).calls = [3] ∧
    (addWork (some (fun _ : ℕ => false)) 3 2 3 (addWork (some fun _ => false) 3 1 2
        (addWork (some fun _ => false) 3 0 1 WMState.init))).counter = 0 ∧
    (addWork (some (fun _ : ℕ => false)) 3 2 3 (addWork (some fun _ => false) 3 1 2
        (addWork (some fun _ => false) 3 0 1 WMState.init))).data_buffer = [] ∧
    (addWork (some (fun _ : ℕ => false)) 3 2 3 (addWork (some fun _ => false) 3 1 2
        (addWork (some fun _ => false) 3 0 1 WMState.init))).start_time = none ∧
    (addWork (some (fun _ : ℕ => false)) 3 2 3 (addWork (some fun _ => false) 3 1 2
        (addWork (some fun _ => false) 3 0 1 WMState.init))).raised = false :=
  C3_count_fire (fun _ => false) 1 2 3 0 1 2 rfl

/-- C4 (code bug): `_trigger_callback` has no try/finally, so a raising
consumer skips the reset statements. After three `addWork` calls with an
always-raising callback, the exception has propagated (`raised`) and the
scheduler is left with `counter = 3`, the full buffer and an armed
deadline — permanently Accumulating, not reset to Idle as the spec
requires. -/
theorem C4_no_reset_on_raise :
    addWork (some (fun _ => true)) 3 0 3
        (addWork (some (fun _ => true)) 3 0 2
          (addWork (some (fun _ => true)) 3 0 1 (WMState.init (α := ℕ))))
      = ⟨3, some 0, [1, 2, 3], [3], true⟩ := by
  simp [addWork, WMState.init, trigger_callback, wmReset]

/-- C5 (code bug): `WorkloadManager` takes no lock, so the count-triggered
fire in `addWork` and the deadline-triggered fire in `_timer_check` can
interleave between the callback invocation and the reset statements.
`raceSched` is such an interleaving: one accumulation window, after
which both threads have completed and the scheduler is reset, but the
consumer was invoked twice (with the same item 3). -/
theorem C5_double_fire :
    (runSched 3 5 10 3 raceSched raceInit).calls = [3, 3] ∧
    (runSched 3 5 10 3 raceSched raceInit).counter = 0 ∧
    (runSched 3 5 10 3 raceSched raceInit).data_buffer = [] ∧
    (runSched 3 5 10 3 raceSched raceInit).pcM = 9 ∧
    (runSched 3 5 10 3 raceSched raceInit).pcT = 7 := by
  decide

/-- C6 (confirmed): every scheduler operation — `addWork`, `flush`,
timer fire — preserves the Batch State invariant that the deadline is
armed iff the counter is positive (even when the consumer raises), and
a fire that completes without an exception clears counter, deadline and
buffer together. -/
theorem C6_invariant {α : Type} :
    (∀ (cb : Option (α → Bool)) (kThr now : ℕ) (x : α) (s : WMState α),
      wmInv s → wmInv (addWork cb kThr now x s)) ∧
    (∀ (cb : Option (α → Bool)) (s : WMState α), wmInv s → wmInv (flush cb s)) ∧
    (∀ (cb : Option (α → Bool)) (tThr now : ℕ) (s : WMState α),
      wmInv s → wmInv (timer_fire cb tThr now s)) ∧
    (∀ (cb : Option (α → Bool)) (s : WMState α), s.raised = false →
      (trigger_callback cb s).raised = false →
      (trigger_callback cb s).counter = 0 ∧
      (trigger_callback cb s).start_time = none ∧
      (trigger_callback cb s).data_buffer = []) := by
  refine ⟨?_, ?_, ?_, fun cb s _ h2 => trigger_callback_clears cb s h2⟩
  · intro cb kThr now x s h
    unfold addWork
    refine fire_check_wmInv cb kThr _ ?_
    split
    next h1 => simp [wmInv]
    next h1 =>
      have h1n : s.counter + 1 ≠ 1 := h1
      have h0 : 0 < s.counter := by omega
      have hsome : s.start_time.isSome := h.mpr h0
      simp [wmInv, hsome]
  · intro cb s h
    unfold flush
    by_cases h0 : 0 < s.counter
    · simpa [h0] using trigger_callback_wmInv cb s h
    · simpa [h0] using h
  · intro cb tThr now s h
    unfold timer_fire
    cases hst : s.start_time with
    | none => simpa using h
    | some t0 =>
      by_cases h2 : tThr ≤ now - t0
      · simpa [h2] using trigger_callback_wmInv cb s h
      · simpa [h2] using h

/-- C6 (witness): the invariant-preservation and clear-together facts
instantiated on concrete states. -/
theorem C6_witness :
    wmInv (addWork (some (fun _ : ℕ => false)) 3 5 7 WMState.init) ∧
    wmInv (flush (some (fun _ : ℕ => false)) WMState.init) ∧
    wmInv (timer_fire (some (fun _ : ℕ => false)) 5 9 (WMState.init (α := ℕ))) ∧
    ((trigger_callback (some (fun _ : ℕ => false)) WMState.init).counter = 0 ∧
      (trigger_callback (some (fun _ : ℕ => false)) WMState.init).start_time = none ∧
      (trigger_callback (some (fun _ : ℕ => false)) WMState.init).data_buffer = []) :=
  ⟨C6_invariant.1 _ 3 5 7 _ (by simp [wmInv, WMState.init]),
   C6_invariant.2.1 _ _ (by simp [wmInv, WMState.init]),
   C6_invariant.2.2.1 _ 5 9 _ (by simp [wmInv, WMState.init]),
   C6_invariant.2.2.2 _ _ rfl rfl⟩

/-- C7 (counterexample): an entry under an unknown integer key is not
preserved verbatim when its value is a container: decoding
`[99 : [3 : 5]]` keeps key 99 but recursively restores the nested dict,
renaming inner key 3 to `latitude` and un-scaling 5. -/
theorem C7_counterexample :
    decode_json [(VKey.kint 99, Value.vdict [(VKey.kint 3, Value.vint 5)])]
      = [(VKey.kint 99,
          Value.vdict [(VKey.kstr "latitude", Value.vfloat (5/100000))])] ∧
    Value.vdict [(VKey.kstr "latitude", Value.vfloat (5/100000))]
      ≠ Value.vdict [(VKey.kint 3, Value.vint 5)] := by
  have h99 : List.lookup (99 : ℤ) REVERSE_KEY_MAPPING = none := by decide
  have h3 : List.lookup (3 : ℤ) REVERSE_KEY_MAPPING = some "latitude" := by decide
  have hlat : List.lookup "latitude" FIELD_CONFIG = some (3, 100000) := by decide
  have hres : restore_int_branch (.vint 5) 5 (some (.kstr "latitude"))
      = .vfloat (5/100000) := by
    have h2 := restore_value_vint_of_lookup 5 hlat (by norm_num)
    rw [restore_value] at h2
    rw [h2]
    norm_num
  constructor
  · simp [decode_json, decodeKey, h99, h3, restore_value, restore_dict, hres]
  · simp

/-- C7 (amended): unregistered string names survive encoding as string
keys (their values still minimized with scale 1), and an unknown integer
key survives decoding with its value returned unchanged whenever the
value is not a container; container values are still recursively
restored (as the counterexample shows). Both directions are total — no
error is signalled. -/
theorem C7_passthrough :
    (∀ (d : List (VKey × Value)) (name : String) (v : Value),
      List.lookup name FIELD_CONFIG = none → (VKey.kstr name, v) ∈ d →
      (VKey.kstr name, minimize_value v (some (.kstr name))) ∈ optimize_json d) ∧
    (∀ (d : List (VKey × Value)) (n : ℤ) (v : Value),
      List.lookup n REVERSE_KEY_MAPPING = none → (VKey.kint n, v) ∈ d →
      ¬ isContainer v → (VKey.kint n, v) ∈ decode_json d) := by
  constructor
  · intro d name v hn hm
    have hmm := List.mem_map_of_mem
      (fun e => (encodeKey e.1, minimize_value e.2 (some e.1))) hm
    simpa [optimize_json, encodeKey, cfgLookup, hn] using hmm
  · intro d n v hn hm hnc
    have hdk : decodeKey (.kint n) = .kint n := by simp [decodeKey, hn]
    have hrv : restore_value v (some (.kint n)) = v := by
      cases v with
      | vbool b => simp [restore_value, restore_int_branch, cfgLookup]
      | vint m => simp [restore_value, restore_int_branch, cfgLookup]
      | vstr s => rw [restore_value] <;> simp
      | vfloat q => rw [restore_value] <;> simp
      | vnull => rw [restore_value] <;> simp
      | vlist l => exact absurd (by trivial) hnc
      | vdict dd => exact absurd (by trivial) hnc
    have hmm := List.mem_map_of_mem
      (fun e => (decodeKey e.1,
        restore_value e.2 (some (decodeKey e.1)))) hm
    simpa [decode_json, hdk, hrv] using hmm

/-- C7 (witness): pass-through on concrete unregistered entries — the
string name `foo` on encode, the unknown key 99 with a float value on
decode. -/
theorem C7_witness :
    (VKey.kstr "foo", minimize_value (.vstr "x") (some (.kstr "foo")))
      ∈ optimize_json [(VKey.kstr "foo", Value.vstr "x")] ∧
    (VKey.kint 99, Value.vfloat (7/2))
      ∈ decode_json [(VKey.kint 99, Value.vfloat (7/2))] :=
  ⟨C7_passthrough.1 _ "foo" _ (by decide) (List.Mem.head _),
   C7_passthrough.2 _ 99 _ (by decide) (List.Mem.head _) (by simp [isContainer])⟩

/-- C8 (counterexample): for an unregistered field the value is not an
identity pass-through: the non-integer numeric value 1.5 under the
unregistered name `spam` is truncated to the integer 1 by
`int(value * 1)`. -/
theorem C8_counterexample :
    List.lookup "spam" FIELD_CONFIG = none ∧
    minimize_value (.vfloat (3/2)) (some (.kstr "spam")) = .vint 1 ∧
    Value.vint 1 ≠ Value.vfloat (3/2) := by
  have h : List.lookup "spam" FIELD_CONFIG = none := by decide
  have htr : pyTrunc ((3 : ℚ)/2 * 1) = 1 := by
    unfold pyTrunc
    rw [if_pos (by norm_num)]
    norm_num
  exact ⟨h, by rw [minimize_value, scaleOf_of_not_registered h, htr], by simp⟩

/-- C8 (amended): for an unregistered field the scale defaults to 1 and
integer and string values pass through unchanged, but the encoder still
coerces numbers: a float becomes `int(value)` (truncation toward zero)
and a boolean becomes 0/1 — not an identity for every value. -/
theorem C8_unregistered (name : String)
    (h : List.lookup name FIELD_CONFIG = none) :
    scaleOf (some (.kstr name)) = 1 ∧
    (∀ n : ℤ, minimize_value (.vint n) (some (.kstr name)) = .vint n) ∧
    (∀ s : String, minimize_value (.vstr s) (some (.kstr name)) = .vstr s) ∧
    (∀ q : ℚ, minimize_value (.vfloat q) (some (.kstr name))
      = .vint (pyTrunc q)) ∧
    (∀ b : Bool, minimize_value (.vbool b) (some (.kstr name))
      = .vint (if b then 1 else 0)) := by
  have hs := scaleOf_of_not_registered h
  refine ⟨hs, ?_, ?_, ?_, ?_⟩
  · intro n
    rw [minimize_value, hs, mul_one, pyTrunc_intCast]
  · intro s
    rw [minimize_value]
  · intro q
    rw [minimize_value, hs, mul_one]
  · intro b
    rw [minimize_value]

/-- C8 (witness): the unregistered-field facts at the concrete name
`foo` and concrete values. -/
theorem C8_witness :
    scaleOf (some (.kstr "foo")) = 1 ∧
    minimize_value (.vint 42) (some (.kstr "foo")) = .vint 42 ∧
    minimize_value (.vstr "x") (some (.kstr "foo")) = .vstr "x" :=
  ⟨(C8_unregistered "foo" (by decide)).1,
   (C8_unregistered "foo" (by decide)).2.1 42,
   (C8_unregistered "foo" (by decide)).2.2.1 "x"⟩

/-- C9 (confirmed): for a registered field with scale 1 and any integer
value, the full encode/serialize/deserialize/decode pipeline returns
exactly the original integer, as an integer. (Numbers are modelled as
exact rationals; Python float division precision for integers beyond
2^53 is outside this model.) -/
theorem C9_scale_one_exact (name : String) (k n : ℤ)
    (h : List.lookup name FIELD_CONFIG = some (k, 1)) :
    from_cbor2 (to_cbor2 [(VKey.kstr name, Value.vint n)])
      = some [(VKey.kstr name, Value.vint n)] := by
  rw [from_cbor2_to_cbor2, decode_json_optimize_json]
  have hmin : minimize_value (.vint n) (some (.kstr name)) = .vint n := by
    rw [minimize_value, scaleOf_of_lookup h, mul_one, pyTrunc_intCast]
  have hres : restore_value (.vint n) (some (.kstr name)) = .vint n := by
    rw [restore_value_vint_of_lookup n h one_pos]
    simp
  simp [decodeKey_encodeKey, hmin, hres]

/-- C9 (witness): exact integer round-trip for `altitude = 4523`. -/
theorem C9_witness :
    from_cbor2 (to_cbor2 [(VKey.kstr "altitude", Value.vint 4523)])
      = some [(VKey.kstr "altitude", Value.vint 4523)] :=
  C9_scale_one_exact "altitude" 5 4523 (by decide)

/-- C10 (confirmed): for a registered field with scale different from 1,
restoration un-scales only integer compact values: a float, string or
null compact value is returned completely unchanged (note that in
Python a boolean is an `int`, so it does enter the integer branch), and
decode is total on such values. -/
theorem C10_restore_non_int (name : String) (k : ℤ) (s : ℚ)
    (h : List.lookup name FIELD_CONFIG = some (k, s)) (hs : s ≠ 1) :
    (∀ q : ℚ, restore_value (.vfloat q) (some (.kstr name)) = .vfloat q) ∧
    (∀ t : String, restore_value (.vstr t) (some (.kstr name)) = .vstr t) ∧
    restore_value .vnull (some (.kstr name)) = .vnull :=
  ⟨fun q => by rw [restore_value] <;> simp,
   fun t => by rw [restore_value] <;> simp,
   by rw [restore_value] <;> simp⟩

/-- C10 (witness): unchanged restoration of a concrete float and string
under `latitude` (scale 100000). -/
theorem C10_witness :
    restore_value (.vfloat (7/2)) (some (.kstr "latitude")) = .vfloat (7/2) ∧
    restore_value (.vstr "x") (some (.kstr "latitude")) = .vstr "x" :=
  ⟨(C10_restore_non_int "latitude" 3 100000 (by decide) (by decide)).1 (7/2),
   (C10_restore_non_int "latitude" 3 100000 (by decide) (by decide)).2.1 "x"⟩

end SondeLoraBridge
